import Mathlib

/-!
Verification development for the desirelines webhook-driven aggregation
pipeline.  The Python sources are embedded shallowly: the per-year summary
document (a Python `dict[str, SummaryEntry]`) becomes an association list,
float distances become exact rationals, raised exceptions become `Except`
errors, and the Cloud Function handlers become total functions returning a
structured `HandlerResult`.
-/

namespace Desirelines

/-! ## Data model (stravapipe/types.py, stravapipe/domain/activity.py)

`SummaryEntry` mirrors the TypedDict `{distance_miles: float,
activity_ids: list[int]}`.  `SummaryObject = dict[str, SummaryEntry]` is
modelled as an association list in insertion order, which is exactly the
iteration/update order of a Python dict. -/

structure SummaryEntry where
  distance_miles : ℚ
  activity_ids : List ℤ
  deriving Repr, DecidableEq

abbrev SummaryObject := List (String × SummaryEntry)

/-- `date_str in summary` / `summary[date_str]`: first binding of a key. -/
def lookupDay : SummaryObject → String → Option SummaryEntry
  | [], _ => none
  | (k, v) :: rest, d => if k = d then some v else lookupDay rest d

/-- `summary[date_str] = entry` for a key that is already present: replace
the first binding in place (a Python dict update keeps the key position). -/
def setDay : SummaryObject → String → SummaryEntry → SummaryObject
  | [], _, _ => []
  | (k, v) :: rest, d, e => if k = d then (k, e) :: rest else (k, v) :: setDay rest d e

/-- `del summary[date_str]`: drop the first binding of the key. -/
def eraseDay : SummaryObject → String → SummaryObject
  | [], _ => []
  | (k, v) :: rest, d => if k = d then rest else (k, v) :: eraseDay rest d

/-- `MinimalStravaActivity` (stravapipe/domain/activity.py): `{id, type,
start_date_local, distance}`.  The `start_date_local` datetime only ever
reaches the aggregation code through its two projections `date_str`
(`.date().strftime("%Y-%m-%d")`) and `.year`, so the embedding carries
those projections directly.  The aggregator package's `StravaActivity`
has the same fields and the same derived properties. -/
structure MinimalStravaActivity where
  id : ℤ
  type : String
  year : ℕ
  date_str : String
  distance : ℚ
  deriving Repr, DecidableEq

/-- Computed field `distance_miles`: `self.distance / 1000.0 * 0.62137`. -/
def MinimalStravaActivity.distance_miles (a : MinimalStravaActivity) : ℚ :=
  a.distance / 1000 * (62137 / 100000)

/-! ## AggregationEngine: create merge
(packages/aggregator/src/aggregator/application/usecases/_update_summary.py,
`UpdateSummaryUseCase._update_summary`).  Returning `none` models the
Python `return None` no-op branch (the caller then skips the export and the
document is left unchanged). -/

def updateSummary (summary : SummaryObject) (activity : MinimalStravaActivity) :
    Option SummaryObject :=
  match lookupDay summary activity.date_str with
  | some day =>
    if activity.id ∈ day.activity_ids then
      none
    else
      some (setDay summary activity.date_str
        ⟨day.distance_miles + activity.distance_miles,
         day.activity_ids ++ [activity.id]⟩)
  | none =>
    some (summary ++ [(activity.date_str,
      ⟨activity.distance_miles, [activity.id]⟩)])

/-! ## AggregationEngine: delete removal
(stravapipe/application/aggregator/usecases/delete_summary.py,
`DeleteSummaryUseCase._remove_from_summary`).  A raised
`ActivityNotFoundError` becomes `Except.error` carrying the exception's
message string (`str(e)` is what the handler later inspects). -/

/-- Message of the `ActivityNotFoundError` raised when `activity.date_str`
is not a key of the summary. -/
def summaryDateMissingMsg (id : ℤ) (date_str : String) : String :=
  "Activity " ++ toString id ++ " not found in summary for date " ++ date_str

/-- Message of the `ActivityNotFoundError` raised when the id is missing
from that day's `activity_ids`. -/
def summaryIdMissingMsg (id : ℤ) (date_str : String) : String :=
  "Activity " ++ toString id ++ " not in summary for date " ++ date_str

def removeFromSummary (summary : SummaryObject) (activity : MinimalStravaActivity) :
    Except String SummaryObject :=
  match lookupDay summary activity.date_str with
  | none => .error (summaryDateMissingMsg activity.id activity.date_str)
  | some day =>
    if activity.id ∈ day.activity_ids then
      let newIds := day.activity_ids.erase activity.id
      if newIds = [] then
        .ok (eraseDay summary activity.date_str)
      else
        .ok (setDay summary activity.date_str
          ⟨day.distance_miles - activity.distance_miles, newIds⟩)
    else
      .error (summaryIdMissingMsg activity.id activity.date_str)

/-! ## Warehouse metadata lookup
(stravapipe/adapters/gcp/_bigquery.py, `ActivitiesRepo.read_activity_metadata`).
A warehouse row carries the stored columns the query selects: `id, type,
start_date_local, distance` (distance in meters, as written by the BQ
inserter from the Strava payload); `start_date_local` again appears through
its `year`/`date_str` projections. -/

structure BqRow where
  id : ℤ
  type : String
  year : ℕ
  date_str : String
  distance : ℚ
  deriving Repr, DecidableEq

/-- Message of the `ActivityNotFoundError` raised when the UNION query over
`activities` and `deleted_activities` returns no rows. -/
def bqNotFoundMsg (activity_id : ℤ) : String :=
  "Activity " ++ toString activity_id ++
    " not found in BigQuery (checked both activities and deleted_activities tables)"

/-- The row-to-model conversion at the end of `read_activity_metadata`:
`distance_miles = row.distance / 1000.0 * 0.62137` followed by
`MinimalStravaActivity(..., distance=distance_miles)` — the adapter stores
its locally converted miles value into the model's `distance` field. -/
def readActivityMetadataConvert (row : BqRow) : MinimalStravaActivity :=
  { id := row.id
    type := row.type
    year := row.year
    date_str := row.date_str
    distance := row.distance / 1000 * (62137 / 100000) }

/-- `read_activity_metadata`: UNION ALL over the primary table and the
`deleted_activities` archive, `WHERE id = @activity_id`, `LIMIT 1`;
no row in either table raises `ActivityNotFoundError` with
`bqNotFoundMsg`. -/
def readActivityMetadata (activities deleted_activities : List BqRow)
    (activity_id : ℤ) : Except String MinimalStravaActivity :=
  match (activities.filter (fun r => r.id = activity_id) ++
         deleted_activities.filter (fun r => r.id = activity_id)).head? with
  | none => .error (bqNotFoundMsg activity_id)
  | some row => .ok (readActivityMetadataConvert row)

/-! ## Use-case runs (the orchestrator layer seen by the handler) -/

/-- Outcome of `DeleteSummaryUseCase.run`: a raised
`ActivityNotFoundError` (carrying its message), an early return on the
type filter, or a normal completion whose updated summary is exported. -/
inductive DeleteRunResult where
  | raisedNotFound (msg : String)
  | filteredSkip
  | completed (updated : SummaryObject)
  deriving Repr, DecidableEq

/-- `DeleteSummaryUseCase.run`
(stravapipe/application/aggregator/usecases/delete_summary.py):
metadata lookup, type filter against `("Ride", "VirtualRide")`, summary
read for the activity's year, then `_remove_from_summary`.  The pacing
recomputation and export that follow a successful removal do not affect
which `DeleteRunResult` constructor is produced. -/
def deleteSummaryUseCaseRun (activities deleted_activities : List BqRow)
    (readSummary : ℕ → SummaryObject) (activity_id : ℤ) : DeleteRunResult :=
  match readActivityMetadata activities deleted_activities activity_id with
  | .error msg => .raisedNotFound msg
  | .ok activity =>
    if ¬(activity.type = "Ride" ∨ activity.type = "VirtualRide") then
      .filteredSkip
    else
      match removeFromSummary (readSummary activity.year) activity with
      | .error msg => .raisedNotFound msg
      | .ok updated => .completed updated

/-- Outcome of `UpdateSummaryUseCase.run`
(packages/aggregator/.../_update_summary.py): the Strava fetch raised
`ActivityNotFoundError` (404), the type filter returned early, the
activity was already logged (`_update_summary` returned `None`), or the
merged summary was exported. -/
inductive CreateRunResult where
  | raisedNotFound
  | skippedType
  | alreadyLogged
  | exported (updated : SummaryObject)
  deriving Repr, DecidableEq

/-- The part of `UpdateSummaryUseCase.run` after the activity has been
fetched: filter on `("Ride", "VirtualRide")`, then `_update_summary`. -/
def updateSummaryUseCaseRun (summary : SummaryObject)
    (activity : MinimalStravaActivity) : CreateRunResult :=
  if ¬(activity.type = "Ride" ∨ activity.type = "VirtualRide") then
    .skippedType
  else
    match updateSummary summary activity with
    | none => .alreadyLogged
    | some updated => .exported updated

/-! ## Cloud Function handler (functions/activity_aggregator.py, `main`) -/

/-- Structured return value of `main`, plus a `raised` constructor for the
exceptions it deliberately lets propagate to Pub/Sub (which then
redelivers the message). -/
inductive HandlerResult where
  | processed (action : String) (activity_id : ℤ)
  | skippedReason (reason : String) (activity_id : ℤ)
  | skippedAspect (aspect : String)
  | failed (error : String)
  | raised (msg : String)
  deriving Repr, DecidableEq

/-- The delete branch of `main`: on `ActivityNotFoundError` it inspects
`str(e)` with `if "BigQuery" in error_message` to decide re-raise
(warehouse miss, retryable race) versus a skipped success
(summary miss). -/
def mainDeleteBranch (run : DeleteRunResult) (object_id : ℤ) : HandlerResult :=
  match run with
  | .completed _ => .processed "deleted" object_id
  | .filteredSkip => .processed "deleted" object_id
  | .raisedNotFound msg =>
    if "BigQuery".toList <:+: msg.toList then
      .raised msg
    else
      .skippedReason "activity_not_in_summary" object_id

/-- The create branch of `main`: `ActivityNotFoundError` (Strava 404) is a
skipped success; every normal return of the use case is reported as
processed. -/
def mainCreateBranch (run : CreateRunResult) (object_id : ℤ) : HandlerResult :=
  match run with
  | .raisedNotFound => .skippedReason "activity_not_found" object_id
  | _ => .processed "created" object_id

/-- Pub/Sub push envelope as `main` sees it: `event.data`, its `message`
field, and the message's `data` field may each be absent. -/
structure PubSubMessage where
  dataField : Option String
  deriving Repr, DecidableEq

structure CloudEventData where
  message : Option PubSubMessage
  deriving Repr, DecidableEq

structure CloudEvent where
  data : Option CloudEventData
  deriving Repr, DecidableEq

/-- `validate_cloud_event`: raises `CloudEventValidationError` when the
envelope structure is malformed. -/
def validateCloudEvent (event : CloudEvent) : Except String Unit :=
  match event.data with
  | none => .error "CloudEvent data is missing"
  | some d =>
    match d.message with
    | none => .error "CloudEvent missing 'message' field"
    | some m =>
      match m.dataField with
      | none => .error "CloudEvent message missing 'data' field"
      | some _ => .ok ()

inductive AspectType where
  | create
  | update
  | delete
  deriving Repr, DecidableEq

/-- The field of `WebhookRequest` that `main` routes on, plus the activity
id it reports. -/
structure WebhookRequest where
  aspect_type : AspectType
  object_id : ℤ
  deriving Repr, DecidableEq

/-- `AspectType.value` as used in the skip result for update events. -/
def AspectType.value : AspectType → String
  | .create => "create"
  | .update => "update"
  | .delete => "delete"

/-- `main`: envelope validation (a failure is *re-raised*, see the
`except CloudEventValidationError` block at the bottom of the function),
then `safe_decode_message` (failure → structured
`{"status": "failed", "error": "message_decode_failed"}`), then
`WebhookRequest(**event_data)` (pydantic `ValidationError` → structured
`{"status": "failed", "error": "validation_failed"}`), then routing on
`aspect_type`.  `decode` and `parse` abstract the base64/JSON decoding and
the pydantic schema validation; the use-case factories are abstracted by
the two run outcomes. -/
def mainAggregator {α : Type} (event : CloudEvent)
    (decode : String → Except String α)
    (parse : α → Except String WebhookRequest)
    (createRun : ℤ → CreateRunResult)
    (deleteRun : ℤ → DeleteRunResult) : HandlerResult :=
  match validateCloudEvent event with
  | .error msg => .raised msg
  | .ok () =>
    match event.data with
    | none => .raised "CloudEvent data is missing"
    | some d =>
      match d.message with
      | none => .raised "CloudEvent missing 'message' field"
      | some m =>
        match m.dataField with
        | none => .raised "CloudEvent message missing 'data' field"
        | some raw =>
          match decode raw with
          | .error _ => .failed "message_decode_failed"
          | .ok eventData =>
            match parse eventData with
            | .error _ => .failed "validation_failed"
            | .ok req =>
              match req.aspect_type with
              | .create => mainCreateBranch (createRun req.object_id) req.object_id
              | .delete => mainDeleteBranch (deleteRun req.object_id) req.object_id
              | .update => .skippedAspect AspectType.update.value

/-! ## DeleteActivityService
(stravabqsync/application/services/_delete_service.py, `run`).  The two
DML statements are modelled over list-backed tables; the emitted `ops`
trace records, in execution order, which statements actually ran and how
many rows each affected. -/

structure DeletedRow where
  row : BqRow
  deletion_event_time : ℤ
  deletion_correlation_id : String
  deriving Repr, DecidableEq

inductive BqOp where
  | archiveInsert (affected : ℕ)
  | deleteFromActivities (affected : ℕ)
  deriving Repr, DecidableEq

inductive DeleteServiceOutcome where
  | skipped (reason : String) (activity_id : ℤ)
  | processed (action : String) (activity_id : ℤ)
  deriving Repr, DecidableEq

structure DeleteServiceResult where
  outcome : DeleteServiceOutcome
  activities : List BqRow
  deleted_activities : List DeletedRow
  ops : List BqOp
  deriving Repr, DecidableEq

/-- `DeleteActivityService.run`: first `INSERT INTO deleted_activities
SELECT *, ... FROM activities WHERE id = @activity_id`; if
`num_dml_affected_rows == 0` return the skipped result without running the
delete; otherwise `DELETE FROM activities WHERE id = @activity_id` and
return the processed result. -/
def deleteActivityServiceRun (activities : List BqRow)
    (deleted_activities : List DeletedRow) (activity_id : ℤ)
    (correlation_id : String) (event_time : ℤ) : DeleteServiceResult :=
  let archivedRows := activities.filter (fun r => r.id = activity_id)
  let archived := deleted_activities ++
    archivedRows.map (fun r => ⟨r, event_time, correlation_id⟩)
  if archivedRows.length = 0 then
    { outcome := .skipped "activity_not_found" activity_id
      activities := activities
      deleted_activities := archived
      ops := [.archiveInsert 0] }
  else
    { outcome := .processed "deleted" activity_id
      activities := activities.filter (fun r => ¬r.id = activity_id)
      deleted_activities := archived
      ops := [.archiveInsert archivedRows.length,
              .deleteFromActivities (activities.filter
                (fun r => r.id = activity_id)).length] }

/-! ## Date utilities (stravapipe/utils.py) and PacingService
(stravapipe/application/aggregator/services/pacing_service.py).

Python `datetime.date` subtraction is day-count subtraction; the proleptic
Gregorian ordinal used by CPython (`_ymd2ord`) is
`365*(y-1) + (y-1)//4 - (y-1)//100 + (y-1)//400 +
days_before_month(y, m) + d`, which `toOrdinal` reproduces over ℕ. -/

/-- `y % 4 == 0 and (y % 100 != 0 or y % 400 == 0)`. -/
def isLeapYear (y : ℕ) : Bool :=
  decide ((y % 4 = 0 ∧ y % 100 ≠ 0) ∨ y % 400 = 0)

/-- Number of leap years in `1..y` (CPython `_days_before_year` without
the `365*y` term). -/
def leapsBefore (y : ℕ) : ℕ := y / 4 - y / 100 + y / 400

/-- Days in the year strictly before month `m` (valid for `1 ≤ m ≤ 12`). -/
def daysBeforeMonth (leap : Bool) (m : ℕ) : ℕ :=
  let ℓ : ℕ := if leap then 1 else 0
  match m with
  | 1 => 0
  | 2 => 31
  | 3 => 59 + ℓ
  | 4 => 90 + ℓ
  | 5 => 120 + ℓ
  | 6 => 151 + ℓ
  | 7 => 181 + ℓ
  | 8 => 212 + ℓ
  | 9 => 243 + ℓ
  | 10 => 273 + ℓ
  | 11 => 304 + ℓ
  | 12 => 334 + ℓ
  | _ => 0

/-- A Python `datetime.date`. -/
structure PyDate where
  year : ℕ
  month : ℕ
  day : ℕ
  deriving Repr, DecidableEq

/-- Day-of-year ordinal, 1-based. -/
def dayOfYear (d : PyDate) : ℕ :=
  daysBeforeMonth (isLeapYear d.year) d.month + d.day

/-- Proleptic Gregorian ordinal of a date (CPython `date.toordinal`). -/
def toOrdinal (d : PyDate) : ℕ :=
  365 * (d.year - 1) + leapsBefore (d.year - 1) + dayOfYear d

/-- Days in a month (CPython `_days_in_month`). -/
def daysInMonth (leap : Bool) (m : ℕ) : ℕ :=
  match m with
  | 2 => if leap then 29 else 28
  | 4 => 30
  | 6 => 30
  | 9 => 30
  | 11 => 30
  | _ => 31

/-- `date.__init__`'s validity condition. -/
def PyDate.valid (d : PyDate) : Prop :=
  1 ≤ d.year ∧ 1 ≤ d.month ∧ d.month ≤ 12 ∧ 1 ≤ d.day ∧
    d.day ≤ daysInMonth (isLeapYear d.year) d.month

/-- `num_days_in_year`: `(date(year + 1, 1, 1) - date(year, 1, 1)).days`. -/
def numDaysInYear (year : ℕ) : ℕ :=
  toOrdinal ⟨year + 1, 1, 1⟩ - toOrdinal ⟨year, 1, 1⟩

/-- The `ValueError` message raised by `num_days_so_far` for a future
year. -/
def futureYearMsg (year todayYear : ℕ) : String :=
  "Year " ++ toString year ++ " has not occurred yet! It's " ++
    toString todayYear ++ "!"

/-- `num_days_so_far`: full length for a past year, `ValueError` for a
future year, otherwise `(today - date(year - 1, 12, 31)).days`.  `today`
(`datetime.now().date()`) is passed explicitly. -/
def numDaysSoFar (today : PyDate) (year : ℕ) : Except String ℕ :=
  if year < today.year then
    .ok (numDaysInYear year)
  else if year > today.year then
    .error (futureYearMsg year today.year)
  else
    .ok (toOrdinal today - toOrdinal ⟨year - 1, 12, 31⟩)

/-! `PacingService`.  `date_range(year)` yields the year's dates in order
with their `strftime("%Y-%m-%d")` strings; the string formatting is
abstracted by `fmt : ℕ → String` over date ordinals. -/

abbrev DistanceTimeseries := List (String × ℚ)

/-- The loop body of `_translate_summary_for_chart`: walk the remaining
dates, break at the first date after `today`, accumulate
`summary[date_str]["distance_miles"]` for days present in the summary,
and append one `{x, y}` point per visited day. -/
def translateChartLoop (summary : SummaryObject) (todayOrd : ℕ) :
    ℚ → List (ℕ × String) → DistanceTimeseries
  | _, [] => []
  | acc, (d, dStr) :: rest =>
    if todayOrd < d then
      []
    else
      match lookupDay summary dStr with
      | some entry =>
        (dStr, acc + entry.distance_miles) ::
          translateChartLoop summary todayOrd (acc + entry.distance_miles) rest
      | none => (dStr, acc) :: translateChartLoop summary todayOrd acc rest

/-- `date_range(year)` paired with the formatter. -/
def dateRange (fmt : ℕ → String) (year : ℕ) : List (ℕ × String) :=
  (List.range (numDaysInYear year)).map
    (fun offset => (toOrdinal ⟨year, 1, 1⟩ + offset,
                    fmt (toOrdinal ⟨year, 1, 1⟩ + offset)))

/-- `PacingService._translate_summary_for_chart`. -/
def translateSummaryForChart (fmt : ℕ → String) (summary : SummaryObject)
    (year : ℕ) (todayOrd : ℕ) : DistanceTimeseries :=
  translateChartLoop summary todayOrd 0 (dateRange fmt year)

/-- `PacingService.calculate`: total distance, the estimated year-end
distance `num_days_in_year(year) * total_distance / num_days_so_far(year)`
(where the `num_days_so_far` call can raise), then the chart translation. -/
def pacingCalculate (fmt : ℕ → String) (today : PyDate)
    (summary : SummaryObject) (year : ℕ) : Except String DistanceTimeseries := do
  let totalDistance := (summary.map (fun p => p.2.distance_miles)).sum
  let soFar ← numDaysSoFar today year
  let _estimatedDistance := (numDaysInYear year : ℚ) * totalDistance / (soFar : ℚ)
  let distanceTraveled := translateSummaryForChart fmt summary year (toOrdinal today)
  pure distanceTraveled

/-! ## Association-list lemmas for the summary document -/

theorem lookupDay_mem {s : SummaryObject} {k : String} {e : SummaryEntry}
    (h : lookupDay s k = some e) : (k, e) ∈ s := by
  induction s with
  | nil => simp [lookupDay] at h
  | cons p rest ih =>
    obtain ⟨k', v⟩ := p
    unfold lookupDay at h
    by_cases hk : k' = k
    · simp [hk] at h
      simp [hk, h]
    · simp [hk] at h
      exact List.mem_cons_of_mem _ (ih h)

theorem lookupDay_none_of_not_mem_keys {s : SummaryObject} {k : String}
    (h : k ∉ s.map Prod.fst) : lookupDay s k = none := by
  induction s with
  | nil => rfl
  | cons p rest ih =>
    obtain ⟨k', v⟩ := p
    simp only [List.map_cons, List.mem_cons] at h
    push_neg at h
    unfold lookupDay
    rw [if_neg (fun hk => h.1 hk.symm), ih h.2]

theorem lookupDay_setDay_self {s : SummaryObject} {k : String}
    {d e : SummaryEntry} (h : lookupDay s k = some d) :
    lookupDay (setDay s k e) k = some e := by
  induction s with
  | nil => simp [lookupDay] at h
  | cons p rest ih =>
    obtain ⟨k', v⟩ := p
    unfold lookupDay at h
    unfold setDay
    by_cases hk : k' = k
    · simp [hk, lookupDay]
    · simp only [if_neg hk]
      unfold lookupDay
      simp only [if_neg hk]
      simp [hk] at h
      exact ih h

theorem lookupDay_append_single_self {s : SummaryObject} {k : String}
    {e : SummaryEntry} (h : lookupDay s k = none) :
    lookupDay (s ++ [(k, e)]) k = some e := by
  induction s with
  | nil => simp [lookupDay]
  | cons p rest ih =>
    obtain ⟨k', v⟩ := p
    unfold lookupDay at h
    by_cases hk : k' = k
    · simp [hk] at h
    · simp [hk] at h
      simpa [lookupDay, hk] using ih h

theorem mem_setDay {s : SummaryObject} {k : String} {e : SummaryEntry}
    {p : String × SummaryEntry} (h : p ∈ setDay s k e) : p.2 = e ∨ p ∈ s := by
  induction s with
  | nil => simp [setDay] at h
  | cons q rest ih =>
    obtain ⟨k', v⟩ := q
    unfold setDay at h
    by_cases hk : k' = k
    · simp only [if_pos hk, List.mem_cons] at h
      rcases h with h | h
      · left; rw [h]
      · right; exact List.mem_cons_of_mem _ h
    · simp only [if_neg hk, List.mem_cons] at h
      rcases h with h | h
      · right; simp [h]
      · rcases ih h with h' | h'
        · left; exact h'
        · right; exact List.mem_cons_of_mem _ h'

theorem mem_eraseDay {s : SummaryObject} {k : String}
    {p : String × SummaryEntry} (h : p ∈ eraseDay s k) : p ∈ s := by
  induction s with
  | nil => simp [eraseDay] at h
  | cons q rest ih =>
    obtain ⟨k', v⟩ := q
    unfold eraseDay at h
    by_cases hk : k' = k
    · simp only [if_pos hk] at h
      exact List.mem_cons_of_mem _ h
    · simp only [if_neg hk, List.mem_cons] at h
      rcases h with h | h
      · simp [h]
      · exact List.mem_cons_of_mem _ (ih h)

theorem lookupDay_eraseDay_self {s : SummaryObject} {k : String}
    (h : (s.map Prod.fst).Nodup) : lookupDay (eraseDay s k) k = none := by
  induction s with
  | nil => rfl
  | cons q rest ih =>
    obtain ⟨k', v⟩ := q
    simp only [List.map_cons, List.nodup_cons] at h
    unfold eraseDay
    by_cases hk : k' = k
    · simp only [if_pos hk]
      exact lookupDay_none_of_not_mem_keys (hk ▸ h.1)
    · simp only [if_neg hk]
      unfold lookupDay
      simp only [if_neg hk]
      exact ih h.2

/-- The document after a create merge: `run` keeps the old document (no
export, no change) when `_update_summary` returns `None`. -/
def applyCreate (summary : SummaryObject) (a : MinimalStravaActivity) :
    SummaryObject :=
  (updateSummary summary a).getD summary

/-- C4: `merge_create` is idempotent — after merging an allow-listed
activity into a year summary document, merging the same activity again is
the `None` no-op branch of `_update_summary`, so the document is left
unchanged and applying the merge twice equals applying it once. -/
theorem merge_create_idempotent (s : SummaryObject) (a : MinimalStravaActivity)
    (_ha : a.type = "Ride" ∨ a.type = "VirtualRide") :
    updateSummary (applyCreate s a) a = none ∧
      applyCreate (applyCreate s a) a = applyCreate s a := by
  have key : updateSummary (applyCreate s a) a = none := by
    unfold applyCreate
    cases hl : lookupDay s a.date_str with
    | some day =>
      by_cases hmem : a.id ∈ day.activity_ids
      · have h1 : updateSummary s a = none := by
          unfold updateSummary
          rw [hl]
          simp [hmem]
        rw [h1, Option.getD_none]
        unfold updateSummary
        rw [hl]
        simp [hmem]
      · have h1 : updateSummary s a = some (setDay s a.date_str
            ⟨day.distance_miles + a.distance_miles,
             day.activity_ids ++ [a.id]⟩) := by
          unfold updateSummary
          rw [hl]
          simp [hmem]
        rw [h1, Option.getD_some]
        unfold updateSummary
        rw [lookupDay_setDay_self hl]
        simp
    | none =>
      have h1 : updateSummary s a = some (s ++ [(a.date_str,
          ⟨a.distance_miles, [a.id]⟩)]) := by
        unfold updateSummary
        rw [hl]
      rw [h1, Option.getD_some]
      unfold updateSummary
      rw [lookupDay_append_single_self hl]
      simp
  refine ⟨key, ?_⟩
  show (updateSummary (applyCreate s a) a).getD (applyCreate s a) = applyCreate s a
  rw [key, Option.getD_none]

/-- C4 witness: Scenario A/B — merge activity 1 into the empty document,
then replay the same create. -/
theorem merge_create_idempotent_witness :
    updateSummary (applyCreate []
        ⟨1, "Ride", 2023, "2023-01-01", 16093⟩)
        ⟨1, "Ride", 2023, "2023-01-01", 16093⟩ = none ∧
      applyCreate (applyCreate [] ⟨1, "Ride", 2023, "2023-01-01", 16093⟩)
        ⟨1, "Ride", 2023, "2023-01-01", 16093⟩ =
        applyCreate [] ⟨1, "Ride", 2023, "2023-01-01", 16093⟩ :=
  merge_create_idempotent [] ⟨1, "Ride", 2023, "2023-01-01", 16093⟩ (Or.inl rfl)

/-- C6: `remove_delete` never leaves an empty day.  For a year summary
document (unique date keys, no day entry with an empty `activity_ids`)
from which `_remove_from_summary` successfully removes an activity, the
resulting document again has no day entry with empty `activity_ids`; in
particular, when the activity was the only one of its day, the day's key
is absent from the result (Scenario D). -/
theorem remove_delete_no_empty_days (s : SummaryObject)
    (a : MinimalStravaActivity) (s' : SummaryObject)
    (hkeys : (s.map Prod.fst).Nodup)
    (hne : ∀ p ∈ s, p.2.activity_ids ≠ [])
    (hok : removeFromSummary s a = .ok s') :
    (∀ p ∈ s', p.2.activity_ids ≠ []) ∧
      (∀ e, lookupDay s a.date_str = some e → e.activity_ids = [a.id] →
        lookupDay s' a.date_str = none) := by
  unfold removeFromSummary at hok
  cases hl : lookupDay s a.date_str with
  | none => rw [hl] at hok; exact absurd hok (by simp)
  | some day =>
    rw [hl] at hok
    by_cases hmem : a.id ∈ day.activity_ids
    · simp only [if_pos hmem] at hok
      by_cases hempty : day.activity_ids.erase a.id = []
      · simp only [if_pos hempty, Except.ok.injEq] at hok
        subst hok
        refine ⟨fun p hp => hne p (mem_eraseDay hp), fun e he _ => ?_⟩
        exact lookupDay_eraseDay_self hkeys
      · simp only [if_neg hempty, Except.ok.injEq] at hok
        subst hok
        constructor
        · intro p hp
          rcases mem_setDay hp with h | h
          · rw [h]
            exact hempty
          · exact hne p h
        · intro e he hone
          cases he
          rw [hone] at hempty
          exact absurd (List.erase_cons_head a.id []) hempty
    · simp only [if_neg hmem] at hok
      exact absurd hok (by simp)

/-- C6 witness: Scenario D — deleting the only activity of 2023-01-02
removes the whole day entry. -/
theorem remove_delete_no_empty_days_witness :
    (∀ p ∈ ([] : SummaryObject), p.2.activity_ids ≠ []) ∧
      (∀ e, lookupDay [("2023-01-02", ⟨5, [2]⟩)] "2023-01-02" = some e →
        e.activity_ids = [2] → lookupDay ([] : SummaryObject) "2023-01-02" = none) :=
  remove_delete_no_empty_days [("2023-01-02", ⟨5, [2]⟩)]
    ⟨2, "VirtualRide", 2023, "2023-01-02", (8046720 : ℚ) / 1000⟩ []
    (by decide) (by decide) (by rfl)

/-- Per-day invariant relative to an assignment `f` of true per-activity
distances: `activity_ids` has no duplicates and `distance_miles` is the
sum of its members' distances (exact, over ℚ). -/
def entryInv (f : ℤ → ℚ) (e : SummaryEntry) : Prop :=
  e.activity_ids.Nodup ∧ e.distance_miles = (e.activity_ids.map f).sum

/-- The per-day invariant holds for every day entry of the document. -/
def summaryInv (f : ℤ → ℚ) (s : SummaryObject) : Prop :=
  ∀ p ∈ s, entryInv f p.2

/-- C5: both pure operations preserve the per-day distance invariant.  If
every day entry's `distance_miles` is the sum of its members' distances
and its `activity_ids` has no duplicates, and the activity's
`distance_miles` agrees with the assignment at its id, then any successful
`merge_create` (which only succeeds when the id is fresh for its day) and
any successful `remove_delete` yield a document satisfying the invariant
again. -/
theorem update_and_remove_preserve_invariant (f : ℤ → ℚ) (s : SummaryObject)
    (a : MinimalStravaActivity) (hinv : summaryInv f s)
    (hf : f a.id = a.distance_miles) :
    (∀ s', updateSummary s a = some s' → summaryInv f s') ∧
      (∀ s', removeFromSummary s a = .ok s' → summaryInv f s') := by
  constructor
  · intro s' h
    unfold updateSummary at h
    cases hl : lookupDay s a.date_str with
    | some day =>
      rw [hl] at h
      by_cases hmem : a.id ∈ day.activity_ids
      · simp [hmem] at h
      · simp only [if_neg hmem, Option.some.injEq] at h
        subst h
        intro p hp
        rcases mem_setDay hp with h | h
        · have hday : entryInv f day := hinv _ (lookupDay_mem hl)
          rw [h]
          constructor
          · rw [List.nodup_append]
            exact ⟨hday.1, List.nodup_singleton _,
              by simpa [List.disjoint_singleton] using hmem⟩
          · simp only [List.map_append, List.sum_append, List.map_singleton,
              List.sum_singleton, hf]
            rw [hday.2]
        · exact hinv p h
    | none =>
      rw [hl] at h
      simp only [Option.some.injEq] at h
      subst h
      intro p hp
      rcases List.mem_append.mp hp with h | h
      · exact hinv p h
      · simp only [List.mem_singleton] at h
        subst h
        refine ⟨List.nodup_singleton _, ?_⟩
        simp [hf]
  · intro s' h
    unfold removeFromSummary at h
    cases hl : lookupDay s a.date_str with
    | none => rw [hl] at h; simp at h
    | some day =>
      rw [hl] at h
      by_cases hmem : a.id ∈ day.activity_ids
      · have hday : entryInv f day := hinv _ (lookupDay_mem hl)
        by_cases hempty : day.activity_ids.erase a.id = []
        · simp [hmem, hempty] at h
          subst h
          exact fun p hp => hinv p (mem_eraseDay hp)
        · simp [hmem, hempty] at h
          subst h
          intro p hp
          rcases mem_setDay hp with h | h
          · rw [h]
            refine ⟨hday.1.sublist (List.erase_sublist _ _), ?_⟩
            have hperm : List.Perm day.activity_ids
                (a.id :: day.activity_ids.erase a.id) :=
              List.perm_cons_erase hmem
            have hsum : (day.activity_ids.map f).sum =
                f a.id + ((day.activity_ids.erase a.id).map f).sum := by
              have := (hperm.map f).sum_eq
              simpa using this
            show day.distance_miles - a.distance_miles =
              ((day.activity_ids.erase a.id).map f).sum
            rw [hday.2, hsum, hf]
            ring
          · exact hinv p h
      · simp [hmem] at h

/-- C5 witness: Scenario-C-style document with the true distances given by
`f`; both the fresh create and the matching delete branch are covered. -/
theorem update_and_remove_preserve_invariant_witness :
    (∀ s', updateSummary [("2023-01-01", ⟨0, [1]⟩)]
        ⟨2, "Ride", 2023, "2023-01-01", 0⟩ = some s' →
        summaryInv (fun _ => 0) s') ∧
      (∀ s', removeFromSummary [("2023-01-01", ⟨0, [1]⟩)]
        ⟨2, "Ride", 2023, "2023-01-01", 0⟩ = .ok s' →
        summaryInv (fun _ => 0) s') :=
  update_and_remove_preserve_invariant (fun _ => 0)
    [("2023-01-01", ⟨0, [1]⟩)] ⟨2, "Ride", 2023, "2023-01-01", 0⟩
    (by intro p hp; simp only [List.mem_singleton] at hp; subst hp
        exact ⟨List.nodup_singleton _, by simp⟩)
    (by simp [MinimalStravaActivity.distance_miles])

/-- The allow-list both use cases filter on: `("Ride", "VirtualRide")`. -/
def allowedType (t : String) : Prop := t = "Ride" ∨ t = "VirtualRide"

instance (t : String) : Decidable (allowedType t) := by
  unfold allowedType
  infer_instance

/-- Every id stored in the document belongs to an activity whose type
(given by the assignment `τ`) is allow-listed. -/
def onlyAllowedIds (τ : ℤ → String) (s : SummaryObject) : Prop :=
  ∀ p ∈ s, ∀ i ∈ p.2.activity_ids, allowedType (τ i)

/-- C7: the type filter works in both directions.  A non-allow-listed
activity makes the create run return before touching the document and
makes the delete run return before touching the document or raising; and
if every id in a document belongs to an allow-listed activity, any
document exported by the create run or produced by `remove_delete` again
contains only ids of allow-listed activities — so no reachable summary
document contains the id of a non-allow-listed activity. -/
theorem type_filter_both_directions (τ : ℤ → String) (s : SummaryObject)
    (a : MinimalStravaActivity) (activities deleted_activities : List BqRow)
    (readSummary : ℕ → SummaryObject) (activity_id : ℤ) :
    (¬allowedType a.type → updateSummaryUseCaseRun s a = .skippedType) ∧
      (∀ row, (activities.filter (fun r => r.id = activity_id) ++
          deleted_activities.filter (fun r => r.id = activity_id)).head? =
            some row → ¬allowedType row.type →
        deleteSummaryUseCaseRun activities deleted_activities readSummary
          activity_id = .filteredSkip) ∧
      (onlyAllowedIds τ s → τ a.id = a.type → allowedType a.type →
        ∀ s', updateSummary s a = some s' → onlyAllowedIds τ s') ∧
      (onlyAllowedIds τ s →
        ∀ s', removeFromSummary s a = .ok s' → onlyAllowedIds τ s') := by
  refine ⟨?_, ?_, ?_, ?_⟩
  · intro hna
    unfold updateSummaryUseCaseRun
    rw [if_pos]
    exact hna
  · intro row hrow hna
    have hmeta : readActivityMetadata activities deleted_activities activity_id =
        .ok (readActivityMetadataConvert row) := by
      unfold readActivityMetadata
      rw [hrow]
    have hna' : ¬((readActivityMetadataConvert row).type = "Ride" ∨
        (readActivityMetadataConvert row).type = "VirtualRide") := hna
    unfold deleteSummaryUseCaseRun
    simp only [hmeta]
    rw [if_pos hna']
  · intro honly hτ hall s' h
    unfold updateSummary at h
    cases hl : lookupDay s a.date_str with
    | some day =>
      rw [hl] at h
      by_cases hmem : a.id ∈ day.activity_ids
      · simp [hmem] at h
      · simp only [if_neg hmem, Option.some.injEq] at h
        subst h
        intro p hp i hi
        rcases mem_setDay hp with h | h
        · rw [h] at hi
          simp only [List.mem_append, List.mem_singleton] at hi
          rcases hi with hi | hi
          · exact honly _ (lookupDay_mem hl) i hi
          · rw [hi, hτ]
            exact hall
        · exact honly p h i hi
    | none =>
      rw [hl] at h
      simp only [Option.some.injEq] at h
      subst h
      intro p hp i hi
      rcases List.mem_append.mp hp with h | h
      · exact honly p h i hi
      · simp only [List.mem_singleton] at h
        subst h
        simp only [List.mem_singleton] at hi
        rw [hi, hτ]
        exact hall
  · intro honly s' h
    unfold removeFromSummary at h
    cases hl : lookupDay s a.date_str with
    | none => rw [hl] at h; simp at h
    | some day =>
      rw [hl] at h
      by_cases hmem : a.id ∈ day.activity_ids
      · by_cases hempty : day.activity_ids.erase a.id = []
        · simp [hmem, hempty] at h
          subst h
          exact fun p hp i hi => honly p (mem_eraseDay hp) i hi
        · simp [hmem, hempty] at h
          subst h
          intro p hp i hi
          rcases mem_setDay hp with h | h
          · rw [h] at hi
            exact honly _ (lookupDay_mem hl) i (List.erase_subset _ _ hi)
          · exact honly p h i hi
      · simp [hmem] at h

/-- C7 witness: a "Run" activity is filtered by the create run, and a
"Run" row found in the warehouse is filtered by the delete run without an
error. -/
theorem type_filter_both_directions_witness :
    updateSummaryUseCaseRun [] ⟨3, "Run", 2023, "2023-01-03", 4828⟩ =
        .skippedType ∧
      deleteSummaryUseCaseRun [⟨3, "Run", 2023, "2023-01-03", 4828⟩] []
        (fun _ => []) 3 = .filteredSkip := by
  have h := type_filter_both_directions (fun _ => "Run") []
    ⟨3, "Run", 2023, "2023-01-03", 4828⟩
    [⟨3, "Run", 2023, "2023-01-03", 4828⟩] [] (fun _ => []) 3
  exact ⟨h.1 (by decide),
    h.2.1 ⟨3, "Run", 2023, "2023-01-03", 4828⟩ (by rfl) (by decide)⟩

/-- C1 (code bug): `read_activity_metadata` converts the stored meter
distance to miles itself (`row.distance / 1000.0 * 0.62137`) and stores
the result in `MinimalStravaActivity.distance`, whose computed field
`distance_miles` divides by 1000 and multiplies by 0.62137 *again*.  At
the stored distance 16093.44 m (the 10-mile fixture used by the repo's
own tests, which feed raw meters into `distance`), the produced
`distance_miles` is the doubly-converted value, not the spec's
`d / 1000 * 0.62137`. -/
theorem read_activity_metadata_double_converts :
    (readActivityMetadataConvert
        ⟨1, "Ride", 2023, "2023-01-01", 1609344 / 100⟩).distance_miles =
      1609344 / 100 / 1000 * (62137 / 100000) / 1000 * (62137 / 100000) ∧
    (readActivityMetadataConvert
        ⟨1, "Ride", 2023, "2023-01-01", 1609344 / 100⟩).distance_miles ≠
      1609344 / 100 / 1000 * (62137 / 100000) := by
  constructor
  · norm_num [readActivityMetadataConvert, MinimalStravaActivity.distance_miles]
  · norm_num [readActivityMetadataConvert, MinimalStravaActivity.distance_miles]

/-- C9: `archive_and_remove` always executes the archive insert first; if
it affected zero rows the outcome is `Skipped` with reason
`activity_not_found`, the delete statement never runs and the primary
table is untouched; the delete runs only when the archive insert affected
at least one row, and then strictly after it. -/
theorem archive_insert_before_delete (activities : List BqRow)
    (deleted_activities : List DeletedRow) (activity_id : ℤ)
    (correlation_id : String) (event_time : ℤ) (res : DeleteServiceResult)
    (hres : res = deleteActivityServiceRun activities deleted_activities
      activity_id correlation_id event_time) :
    res.ops.head? = some (.archiveInsert
        (activities.filter (fun r => r.id = activity_id)).length) ∧
      ((activities.filter (fun r => r.id = activity_id)).length = 0 →
        res.outcome = .skipped "activity_not_found" activity_id ∧
          res.ops = [.archiveInsert 0] ∧ res.activities = activities) ∧
      (∀ n, BqOp.deleteFromActivities n ∈ res.ops →
        1 ≤ (activities.filter (fun r => r.id = activity_id)).length ∧
          res.ops = [.archiveInsert
              (activities.filter (fun r => r.id = activity_id)).length,
            .deleteFromActivities n]) := by
  subst hres
  unfold deleteActivityServiceRun
  by_cases hzero : (activities.filter (fun r => r.id = activity_id)).length = 0
  · simp only [if_pos hzero, hzero]
    refine ⟨rfl, fun _ => ⟨rfl, rfl, rfl⟩, ?_⟩
    intro n hn
    simp at hn
  · simp only [if_neg hzero]
    refine ⟨rfl, fun h => absurd h hzero, ?_⟩
    intro n hn
    simp only [List.mem_cons, List.mem_singleton] at hn
    rcases hn with hn | hn | hn
    · exact absurd hn (by simp)
    · cases hn
      exact ⟨Nat.one_le_iff_ne_zero.mpr hzero, rfl⟩
    · simp at hn

/-- C9 witness: one matching row — archive insert affects one row, then
the delete runs. -/
theorem archive_insert_before_delete_witness :
    (deleteActivityServiceRun [⟨3, "Ride", 2023, "2023-01-03", 4828⟩] [] 3
        "cid" 1702168328).ops.head? = some (.archiveInsert
        (([⟨3, "Ride", 2023, "2023-01-03", 4828⟩] :
          List BqRow).filter (fun r => r.id = 3)).length) ∧
      ((([⟨3, "Ride", 2023, "2023-01-03", 4828⟩] :
          List BqRow).filter (fun r => r.id = 3)).length = 0 →
        (deleteActivityServiceRun [⟨3, "Ride", 2023, "2023-01-03", 4828⟩] [] 3
          "cid" 1702168328).outcome = .skipped "activity_not_found" 3 ∧
          (deleteActivityServiceRun [⟨3, "Ride", 2023, "2023-01-03", 4828⟩] [] 3
            "cid" 1702168328).ops = [.archiveInsert 0] ∧
          (deleteActivityServiceRun [⟨3, "Ride", 2023, "2023-01-03", 4828⟩] [] 3
            "cid" 1702168328).activities =
            [⟨3, "Ride", 2023, "2023-01-03", 4828⟩]) ∧
      (∀ n, BqOp.deleteFromActivities n ∈
          (deleteActivityServiceRun [⟨3, "Ride", 2023, "2023-01-03", 4828⟩] [] 3
            "cid" 1702168328).ops →
        1 ≤ (([⟨3, "Ride", 2023, "2023-01-03", 4828⟩] :
            List BqRow).filter (fun r => r.id = 3)).length ∧
          (deleteActivityServiceRun [⟨3, "Ride", 2023, "2023-01-03", 4828⟩] [] 3
            "cid" 1702168328).ops = [.archiveInsert
              (([⟨3, "Ride", 2023, "2023-01-03", 4828⟩] :
                List BqRow).filter (fun r => r.id = 3)).length,
            .deleteFromActivities n]) :=
  archive_insert_before_delete [⟨3, "Ride", 2023, "2023-01-03", 4828⟩] [] 3
    "cid" 1702168328 _ rfl

/-- The chart loop never outputs a point below its starting accumulator,
and its output is non-decreasing, whenever every summary entry's distance
is non-negative. -/
theorem translateChartLoop_chain (summary : SummaryObject) (todayOrd : ℕ)
    (hnn : ∀ p ∈ summary, 0 ≤ p.2.distance_miles) :
    ∀ (dates : List (ℕ × String)) (acc : ℚ),
      (∀ q ∈ (translateChartLoop summary todayOrd acc dates).head?, acc ≤ q.2) ∧
        List.Chain' (fun p q => p.2 ≤ q.2)
          (translateChartLoop summary todayOrd acc dates) := by
  intro dates
  induction dates with
  | nil =>
    intro acc
    constructor
    · intro q hq
      simp [translateChartLoop] at hq
    · simp [translateChartLoop]
  | cons d rest ih =>
    intro acc
    obtain ⟨dOrd, dStr⟩ := d
    unfold translateChartLoop
    by_cases hbreak : todayOrd < dOrd
    · rw [if_pos hbreak]
      constructor
      · intro q hq
        simp at hq
      · simp
    · rw [if_neg hbreak]
      cases hl : lookupDay summary dStr with
      | some entry =>
        have hd : 0 ≤ entry.distance_miles := hnn _ (lookupDay_mem hl)
        constructor
        · intro q hq
          simp only [List.head?_cons, Option.mem_def, Option.some.injEq] at hq
          rw [← hq]
          show acc ≤ acc + entry.distance_miles
          linarith
        · rw [List.chain'_cons']
          refine ⟨?_, (ih (acc + entry.distance_miles)).2⟩
          intro q hq
          show (dStr, acc + entry.distance_miles).2 ≤ q.2
          exact (ih (acc + entry.distance_miles)).1 q hq
      | none =>
        constructor
        · intro q hq
          simp only [List.head?_cons, Option.mem_def, Option.some.injEq] at hq
          rw [← hq]
        · rw [List.chain'_cons']
          exact ⟨(ih acc).1, (ih acc).2⟩

/-- C8: pacing monotonicity.  For a year summary document whose day
entries all have non-negative `distance_miles`, the cumulative-distance
timeseries produced by `_translate_summary_for_chart` (one point per day
from Jan 1 up to the earlier of today and Dec 31, in date order) has
non-decreasing `y` values. -/
theorem pacing_timeseries_monotone (fmt : ℕ → String) (summary : SummaryObject)
    (year todayOrd : ℕ)
    (hnn : ∀ p ∈ summary, 0 ≤ p.2.distance_miles) :
    List.Chain' (fun p q => p.2 ≤ q.2)
      (translateSummaryForChart fmt summary year todayOrd) :=
  (translateChartLoop_chain summary todayOrd hnn (dateRange fmt year) 0).2

/-- C8 witness: a one-day summary with non-negative distance. -/
theorem pacing_timeseries_monotone_witness :
    List.Chain' (fun p q => p.2 ≤ q.2)
      (translateSummaryForChart (fun _ => "2023-01-01")
        [("2023-01-01", ⟨10, [1]⟩)] 2023 738885) :=
  pacing_timeseries_monotone (fun _ => "2023-01-01")
    [("2023-01-01", ⟨10, [1]⟩)] 2023 738885 (by decide)

/-- Leap-count step: going from year `m` to `m + 1` adds one exactly when
`m + 1` is a leap year. -/
theorem leapsBefore_succ (m : ℕ) :
    leapsBefore (m + 1) = leapsBefore m +
      (if isLeapYear (m + 1) then 1 else 0) := by
  simp only [leapsBefore, isLeapYear, decide_eq_true_eq]
  split_ifs with h
  · omega
  · omega

theorem daysBeforeMonth_one (b : Bool) : daysBeforeMonth b 1 = 0 := by
  cases b <;> rfl

theorem daysBeforeMonth_twelve (b : Bool) :
    daysBeforeMonth b 12 = 334 + (if b then 1 else 0) := by
  cases b <;> rfl

/-- A year has at least 365 days. -/
theorem numDaysInYear_ge (year : ℕ) (hy : 1 ≤ year) :
    365 ≤ numDaysInYear year := by
  obtain ⟨m, rfl⟩ : ∃ m, year = m + 1 := ⟨year - 1, by omega⟩
  unfold numDaysInYear toOrdinal dayOfYear
  rw [daysBeforeMonth_one, daysBeforeMonth_one]
  have h := leapsBefore_succ m
  simp only [Nat.add_sub_cancel]
  split_ifs at h <;> omega

theorem toOrdinal_def (d : PyDate) :
    toOrdinal d = 365 * (d.year - 1) + leapsBefore (d.year - 1) +
      (daysBeforeMonth (isLeapYear d.year) d.month + d.day) := rfl

instance (d : PyDate) : Decidable d.valid := by
  unfold PyDate.valid
  infer_instance

/-- C10: the pacing division is always safe for past and current years,
and future years fail before it.  For every valid `today` and every year
`1 ≤ year ≤ today.year`, `num_days_so_far` returns an integer `n ≥ 1`
(so `calculate`'s `num_days_in_year(year) * total / num_days_so_far(year)`
never divides by zero); for every year strictly greater than
`today.year`, `num_days_so_far` raises `ValueError` and the error
propagates unhandled out of `PacingService.calculate`. -/
theorem num_days_so_far_safe (today : PyDate) (year : ℕ)
    (hv : today.valid) (hy1 : 1 ≤ year) (hy2 : 2 ≤ today.year) :
    (year ≤ today.year → ∃ n, numDaysSoFar today year = .ok n ∧ 1 ≤ n) ∧
      (today.year < year →
        numDaysSoFar today year = .error (futureYearMsg year today.year) ∧
          ∀ (fmt : ℕ → String) (summary : SummaryObject),
            pacingCalculate fmt today summary year =
              .error (futureYearMsg year today.year)) := by
  constructor
  · intro hle
    by_cases hlt : year < today.year
    · refine ⟨numDaysInYear year, ?_, ?_⟩
      · unfold numDaysSoFar
        rw [if_pos hlt]
      · have := numDaysInYear_ge year hy1
        omega
    · have heq : year = today.year := by omega
      refine ⟨toOrdinal today - toOrdinal ⟨year - 1, 12, 31⟩, ?_, ?_⟩
      · unfold numDaysSoFar
        rw [if_neg hlt, if_neg (by omega)]
      · obtain ⟨hy, hm1, hm2, hd1, hd2⟩ := hv
        have hL : leapsBefore (today.year - 1) =
            leapsBefore (today.year - 2) +
              (if isLeapYear (today.year - 1) then 1 else 0) := by
          have h := leapsBefore_succ (today.year - 2)
          rw [show today.year - 2 + 1 = today.year - 1 by omega] at h
          exact h
        subst heq
        rw [toOrdinal_def today, toOrdinal_def ⟨today.year - 1, 12, 31⟩]
        show 1 ≤ 365 * (today.year - 1) + leapsBefore (today.year - 1) +
            (daysBeforeMonth (isLeapYear today.year) today.month + today.day) -
          (365 * (today.year - 1 - 1) + leapsBefore (today.year - 1 - 1) +
            (daysBeforeMonth (isLeapYear (today.year - 1)) 12 + 31))
        rw [daysBeforeMonth_twelve,
          show today.year - 1 - 1 = today.year - 2 by omega]
        split_ifs at hL ⊢ <;> omega
  · intro hgt
    have herr : numDaysSoFar today year = .error (futureYearMsg year today.year) := by
      unfold numDaysSoFar
      rw [if_neg (by omega), if_pos (by omega)]
    refine ⟨herr, fun fmt summary => ?_⟩
    unfold pacingCalculate
    rw [herr]
    rfl

/-- C10 witness: today = 2026-10-12; year 2026 is past-or-current. -/
theorem num_days_so_far_safe_witness :
    ((2026 : ℕ) ≤ (2026 : ℕ) →
      ∃ n, numDaysSoFar ⟨2026, 10, 12⟩ 2026 = .ok n ∧ 1 ≤ n) ∧
      ((2026 : ℕ) < (2026 : ℕ) →
        numDaysSoFar ⟨2026, 10, 12⟩ 2026 =
            .error (futureYearMsg 2026 2026) ∧
          ∀ (fmt : ℕ → String) (summary : SummaryObject),
            pacingCalculate fmt ⟨2026, 10, 12⟩ summary 2026 =
              .error (futureYearMsg 2026 2026)) :=
  num_days_so_far_safe ⟨2026, 10, 12⟩ 2026 (by decide) (by decide) (by decide)

/-! ## C2: the delete-race distinction in the handler -/

/-- Shape of the dynamic substrings of the `ActivityNotFoundError`
messages: `str(activity_id)` and a `%Y-%m-%d` date string consist of
digits and hyphens only. -/
def digitsOrHyphen (s : String) : Prop :=
  ∀ c ∈ s.data, c.isDigit = true ∨ c = '-'

instance (s : String) : Decidable (digitsOrHyphen s) := by
  unfold digitsOrHyphen
  infer_instance

/-- The warehouse-miss message always contains `"BigQuery"`. -/
theorem bigquery_infix_bq_msg (activity_id : ℤ) :
    "BigQuery".toList <:+: (bqNotFoundMsg activity_id).toList := by
  have h1 : "BigQuery".toList <:+:
      (" not found in BigQuery (checked both activities and deleted_activities tables)" :
        String).toList :=
    ⟨" not found in ".toList,
     " (checked both activities and deleted_activities tables)".toList, by decide⟩
  have h2 : (" not found in BigQuery (checked both activities and deleted_activities tables)" :
      String).toList <:+: (bqNotFoundMsg activity_id).toList := by
    show _ <:+: (bqNotFoundMsg activity_id).data
    unfold bqNotFoundMsg
    rw [String.data_append]
    exact List.IsSuffix.isInfix (List.suffix_append _ _)
  exact List.IsInfix.trans h1 h2

/-- A string without the character `B` does not contain `"BigQuery"`. -/
theorem not_infix_bigquery (s : String) (h : 'B' ∉ s.data) :
    ¬"BigQuery".toList <:+: s.toList :=
  fun hinf => h (hinf.subset (by decide))

/-- Neither summary-miss message contains `"BigQuery"` when the id and
date render to digits and hyphens. -/
theorem no_bigquery_in_summary_msgs (activity_id : ℤ) (date_str : String)
    (hid : digitsOrHyphen (toString activity_id))
    (hdate : digitsOrHyphen date_str) :
    ¬"BigQuery".toList <:+: (summaryDateMissingMsg activity_id date_str).toList ∧
      ¬"BigQuery".toList <:+: (summaryIdMissingMsg activity_id date_str).toList := by
  have hB : ∀ s : String, digitsOrHyphen s → 'B' ∉ s.data := by
    intro s hs hmem
    rcases hs _ hmem with h | h
    · simp at h
    · simp at h
  constructor
  · refine not_infix_bigquery _ ?_
    unfold summaryDateMissingMsg
    rw [String.data_append, String.data_append, String.data_append]
    intro hmem
    rcases List.mem_append.mp hmem with hmem | hmem
    · rcases List.mem_append.mp hmem with hmem | hmem
      · rcases List.mem_append.mp hmem with hmem | hmem
        · revert hmem
          decide
        · exact hB _ hid hmem
      · revert hmem
        decide
    · exact hB _ hdate hmem
  · refine not_infix_bigquery _ ?_
    unfold summaryIdMissingMsg
    rw [String.data_append, String.data_append, String.data_append]
    intro hmem
    rcases List.mem_append.mp hmem with hmem | hmem
    · rcases List.mem_append.mp hmem with hmem | hmem
      · rcases List.mem_append.mp hmem with hmem | hmem
        · revert hmem
          decide
        · exact hB _ hid hmem
      · revert hmem
        decide
    · exact hB _ hdate hmem

/-- C2 (amended): the delete handler distinguishes the two not-found
cases.  If the metadata lookup finds the activity in neither the primary
`activities` table nor the `deleted_activities` archive, the
`ActivityNotFoundError` (whose message contains `"BigQuery"`) is
re-raised, so the delivery layer retries.  If a row is found and its type
is allow-listed but the activity is absent from the year summary (date
key missing, or id not in that day's `activity_ids`), the handler returns
the skipped success result with reason `activity_not_in_summary` — the
raised message never contains `"BigQuery"` because its dynamic parts are
an integer id and a `%Y-%m-%d` date. -/
theorem delete_race_distinguished (activities deleted_activities : List BqRow)
    (readSummary : ℕ → SummaryObject) (activity_id : ℤ)
    (hid : digitsOrHyphen (toString activity_id)) :
    (activities.filter (fun r => r.id = activity_id) ++
        deleted_activities.filter (fun r => r.id = activity_id) = [] →
      mainDeleteBranch (deleteSummaryUseCaseRun activities deleted_activities
          readSummary activity_id) activity_id =
        .raised (bqNotFoundMsg activity_id)) ∧
      (∀ row, (activities.filter (fun r => r.id = activity_id) ++
          deleted_activities.filter (fun r => r.id = activity_id)).head? =
            some row →
        allowedType row.type → digitsOrHyphen row.date_str →
        (lookupDay (readSummary row.year) row.date_str = none ∨
          ∃ e, lookupDay (readSummary row.year) row.date_str = some e ∧
            row.id ∉ e.activity_ids) →
        mainDeleteBranch (deleteSummaryUseCaseRun activities deleted_activities
            readSummary activity_id) activity_id =
          .skippedReason "activity_not_in_summary" activity_id) := by
  constructor
  · intro hempty
    have hmeta : readActivityMetadata activities deleted_activities activity_id =
        .error (bqNotFoundMsg activity_id) := by
      unfold readActivityMetadata
      rw [hempty]
      rfl
    unfold deleteSummaryUseCaseRun
    simp only [hmeta]
    simp only [mainDeleteBranch]
    rw [if_pos (bigquery_infix_bq_msg activity_id)]
  · intro row hrow hallow hdate habs
    have hrowid : row.id = activity_id := by
      have hmem : row ∈ activities.filter (fun r => r.id = activity_id) ++
          deleted_activities.filter (fun r => r.id = activity_id) :=
        List.mem_of_mem_head? (Option.mem_def.mpr hrow)
      rcases List.mem_append.mp hmem with hm | hm
      · exact of_decide_eq_true (List.mem_filter.mp hm).2
      · exact of_decide_eq_true (List.mem_filter.mp hm).2
    have hmeta : readActivityMetadata activities deleted_activities activity_id =
        .ok (readActivityMetadataConvert row) := by
      unfold readActivityMetadata
      rw [hrow]
    have hallow2 : ¬¬(row.type = "Ride" ∨ row.type = "VirtualRide") :=
      not_not_intro hallow
    rcases habs with hnone | ⟨e, he, hnotin⟩
    · have hrun : deleteSummaryUseCaseRun activities deleted_activities
          readSummary activity_id =
          .raisedNotFound (summaryDateMissingMsg row.id row.date_str) := by
        unfold deleteSummaryUseCaseRun removeFromSummary
        simp only [hmeta, readActivityMetadataConvert]
        rw [if_neg hallow2, hnone]
      rw [hrun]
      have hni : ¬"BigQuery".toList <:+:
          (summaryDateMissingMsg row.id row.date_str).toList := by
        rw [hrowid]
        exact (no_bigquery_in_summary_msgs activity_id row.date_str hid hdate).1
      simp only [mainDeleteBranch]
      rw [if_neg hni]
    · have hrun : deleteSummaryUseCaseRun activities deleted_activities
          readSummary activity_id =
          .raisedNotFound (summaryIdMissingMsg row.id row.date_str) := by
        unfold deleteSummaryUseCaseRun removeFromSummary
        simp only [hmeta, readActivityMetadataConvert]
        rw [if_neg hallow2]
        simp only [he]
        rw [if_neg hnotin]
      rw [hrun]
      have hni : ¬"BigQuery".toList <:+:
          (summaryIdMissingMsg row.id row.date_str).toList := by
        rw [hrowid]
        exact (no_bigquery_in_summary_msgs activity_id row.date_str hid hdate).2
      simp only [mainDeleteBranch]
      rw [if_neg hni]

/-- C2 witness: empty warehouse — the lookup misses both tables and the
handler re-raises the BigQuery not-found error. -/
theorem delete_race_distinguished_witness :
    mainDeleteBranch (deleteSummaryUseCaseRun [] [] (fun _ => []) 999) 999 =
      .raised (bqNotFoundMsg 999) :=
  (delete_race_distinguished [] [] (fun _ => []) 999 (by decide)).1 rfl

/-- C2 counterexample: a `Run`-type activity found in the warehouse and
absent from the (empty) summary is reported as processed, not as the
skipped result with reason `activity_not_in_summary` that the claim
demands for every warehouse-found, summary-absent activity. -/
theorem delete_race_counterexample :
    mainDeleteBranch (deleteSummaryUseCaseRun
        [⟨3, "Run", 2023, "2023-01-03", 4828⟩] [] (fun _ => []) 3) 3 =
        .processed "deleted" 3 ∧
      mainDeleteBranch (deleteSummaryUseCaseRun
        [⟨3, "Run", 2023, "2023-01-03", 4828⟩] [] (fun _ => []) 3) 3 ≠
        .skippedReason "activity_not_in_summary" 3 := by
  constructor
  · rfl
  · decide

/-- C3 counterexample: an envelope with no `data` at all fails
`validate_cloud_event`, and `main` re-raises the
`CloudEventValidationError` instead of returning a structured
non-retryable failure — so this malformed input is signalled for
re-delivery. -/
theorem malformed_envelope_raises :
    mainAggregator (α := Unit) ⟨none⟩ (fun _ => .ok ())
        (fun _ => .error "x") (fun _ => .alreadyLogged)
        (fun _ => .filteredSkip) = .raised "CloudEvent data is missing" := rfl

/-- C3 (amended): for an envelope that passes the structural validation,
a base64/JSON decode failure or a webhook schema validation failure makes
the handler return the corresponding structured non-retryable failure
result (`message_decode_failed` / `validation_failed`) instead of
raising; envelope-structure failures, by contrast, are re-raised. -/
theorem decode_and_schema_failures_not_retried {α : Type} (raw : String)
    (decode : String → Except String α)
    (parse : α → Except String WebhookRequest)
    (createRun : ℤ → CreateRunResult) (deleteRun : ℤ → DeleteRunResult) :
    (∀ e, decode raw = .error e →
      mainAggregator ⟨some ⟨some ⟨some raw⟩⟩⟩ decode parse createRun deleteRun =
        .failed "message_decode_failed") ∧
      (∀ a e, decode raw = .ok a → parse a = .error e →
        mainAggregator ⟨some ⟨some ⟨some raw⟩⟩⟩ decode parse createRun deleteRun =
          .failed "validation_failed") := by
  constructor
  · intro e h
    unfold mainAggregator validateCloudEvent
    simp only [h]
  · intro a e h1 h2
    unfold mainAggregator validateCloudEvent
    simp only [h1, h2]

/-- C3 witness: a decode failure on a concrete envelope is acknowledged
with the structured `message_decode_failed` result. -/
theorem decode_and_schema_failures_not_retried_witness :
    mainAggregator (α := Unit) ⟨some ⟨some ⟨some "%%%"⟩⟩⟩
        (fun _ => .error "Failed to decode message")
        (fun _ => .error "x") (fun _ => .alreadyLogged)
        (fun _ => .filteredSkip) = .failed "message_decode_failed" :=
  (decode_and_schema_failures_not_retried "%%%"
      (fun _ => .error "Failed to decode message")
      (fun _ => .error "x") (fun _ => .alreadyLogged)
      (fun _ => .filteredSkip)).1 "Failed to decode message" rfl

end Desirelines
